import Mathlib

/-!
# Verification of the K-Bid arbitrage analyzer core

Shallow embedding of the analyzer's profit model, item parser post-processing,
fetch retry loop and batch orchestrator, with theorems checking the
natural-language specification against the code.

Monetary amounts and rates are modelled as rationals (`ℚ`); `Math.round`
on JavaScript numbers is modelled by `round` on `ℚ` (round half towards
positive infinity, which is what `Math.round` does).
-/

namespace KBid

/-- `Math.round(x * 100) / 100` — rounding a dollar amount to cent precision. -/
def roundCent (x : ℚ) : ℚ := (round (x * 100) : ℤ) / 100

/-- A value is cent-precise when rounding it to cents does not change it. -/
def CentPrecise (x : ℚ) : Prop := roundCent x = x

/-- The fields of `ParsedItem` (src/lib/types.ts) used by the analysis stages.
`sizeClass` is kept as a string: the parser builds it from classifier JSON. -/
structure ParsedItem where
  title : String
  category : String
  currentBid : ℚ
  sizeClass : String
  excluded : Bool
  bidCount : Option ℕ
  bidderCount : Option ℕ
deriving DecidableEq

/-- The field of `ValuationResult` consumed by the profit model. -/
structure ValuationResult where
  estimatedValue : ℚ
deriving DecidableEq

/-- The fields of `AnalysisParams` consumed by the profit model. -/
structure AnalysisParams where
  profit_min_dollars : ℚ
  profit_min_percent : ℚ
  selling_fee_percent : ℚ
deriving DecidableEq

/-- `ProfitAnalysis` as returned by `calculateProfit`
(src/services/profitCalculator.ts). -/
structure ProfitAnalysis where
  maxBid : ℚ
  expectedProfit : ℚ
  expectedROI : ℚ
  actualProfit : ℚ
  actualROI : ℚ
  breakEvenPrice : ℚ
  shippingEstimate : ℚ
  fees : ℚ
deriving DecidableEq

/-- `SHIPPING_ESTIMATES` record from src/services/profitCalculator.ts. -/
def SHIPPING_ESTIMATES (sizeClass : String) : Option ℚ :=
  if sizeClass = "small" then some 8
  else if sizeClass = "medium" then some 15
  else if sizeClass = "large" then some 35
  else if sizeClass = "oversized" then some 75
  else none

/-- `KBID_BUYER_PREMIUM_RATE = 0.10` from src/services/profitCalculator.ts. -/
def KBID_BUYER_PREMIUM_RATE : ℚ := 10 / 100

/-- `SHIPPING_ESTIMATES[item.sizeClass] || 15`. -/
def shippingEstimateOf (item : ParsedItem) : ℚ :=
  (SHIPPING_ESTIMATES item.sizeClass).getD 15

/-- `sellingFeeRate = params.selling_fee_percent / 100`. -/
def sellingFeeRate (params : AnalysisParams) : ℚ :=
  params.selling_fee_percent / 100

/-- `sellingFees = estimatedValue * sellingFeeRate`. -/
def sellingFees (valuation : ValuationResult) (params : AnalysisParams) : ℚ :=
  valuation.estimatedValue * sellingFeeRate params

/-- `netProceeds = estimatedValue - sellingFees - shippingEstimate`. -/
def netProceeds (item : ParsedItem) (valuation : ValuationResult)
    (params : AnalysisParams) : ℚ :=
  valuation.estimatedValue - sellingFees valuation params - shippingEstimateOf item

/-- `buyerPremiumMultiplier = 1 + KBID_BUYER_PREMIUM_RATE`. -/
def buyerPremiumMultiplier : ℚ := 1 + KBID_BUYER_PREMIUM_RATE

/-- `maxBidForDollarProfit = (netProceeds - params.profit_min_dollars) / buyerPremiumMultiplier`. -/
def maxBidForDollarProfit (item : ParsedItem) (valuation : ValuationResult)
    (params : AnalysisParams) : ℚ :=
  (netProceeds item valuation params - params.profit_min_dollars) / buyerPremiumMultiplier

/-- `maxBidForROI = netProceeds / (buyerPremiumMultiplier * (1 + params.profit_min_percent / 100))`. -/
def maxBidForROI (item : ParsedItem) (valuation : ValuationResult)
    (params : AnalysisParams) : ℚ :=
  netProceeds item valuation params /
    (buyerPremiumMultiplier * (1 + params.profit_min_percent / 100))

/-- `maxBid = Math.max(0, Math.min(maxBidForDollarProfit, maxBidForROI))`,
before the final cent rounding. -/
def maxBidRaw (item : ParsedItem) (valuation : ValuationResult)
    (params : AnalysisParams) : ℚ :=
  max 0 (min (maxBidForDollarProfit item valuation params)
             (maxBidForROI item valuation params))

/-- `maxBidTotalCost = maxBid * buyerPremiumMultiplier`. -/
def maxBidTotalCost (item : ParsedItem) (valuation : ValuationResult)
    (params : AnalysisParams) : ℚ :=
  maxBidRaw item valuation params * buyerPremiumMultiplier

/-- `expectedProfit = netProceeds - maxBidTotalCost`, before rounding. -/
def expectedProfitRaw (item : ParsedItem) (valuation : ValuationResult)
    (params : AnalysisParams) : ℚ :=
  netProceeds item valuation params - maxBidTotalCost item valuation params

/-- `expectedROI = maxBidTotalCost > 0 ? expectedProfit / maxBidTotalCost * 100 : 0`. -/
def expectedROIRaw (item : ParsedItem) (valuation : ValuationResult)
    (params : AnalysisParams) : ℚ :=
  if 0 < maxBidTotalCost item valuation params then
    expectedProfitRaw item valuation params / maxBidTotalCost item valuation params * 100
  else 0

/-- `actualTotalCost = item.currentBid * buyerPremiumMultiplier`. -/
def actualTotalCost (item : ParsedItem) : ℚ :=
  item.currentBid * buyerPremiumMultiplier

/-- `actualProfit = netProceeds - actualTotalCost`, before rounding. -/
def actualProfitRaw (item : ParsedItem) (valuation : ValuationResult)
    (params : AnalysisParams) : ℚ :=
  netProceeds item valuation params - actualTotalCost item

/-- `actualROI = actualTotalCost > 0 ? actualProfit / actualTotalCost * 100 : 0`. -/
def actualROIRaw (item : ParsedItem) (valuation : ValuationResult)
    (params : AnalysisParams) : ℚ :=
  if 0 < actualTotalCost item then
    actualProfitRaw item valuation params / actualTotalCost item * 100
  else 0

/-- `breakEvenPrice = netProceeds / buyerPremiumMultiplier`, before rounding. -/
def breakEvenPriceRaw (item : ParsedItem) (valuation : ValuationResult)
    (params : AnalysisParams) : ℚ :=
  netProceeds item valuation params / buyerPremiumMultiplier

/-- `calculateProfit` from src/services/profitCalculator.ts (the version with
the K-Bid buyer's premium): assembles the returned record, rounding each
monetary output to cents exactly as the source does. -/
def calculateProfit (item : ParsedItem) (valuation : ValuationResult)
    (params : AnalysisParams) : ProfitAnalysis where
  maxBid := roundCent (maxBidRaw item valuation params)
  expectedProfit := roundCent (expectedProfitRaw item valuation params)
  expectedROI := roundCent (expectedROIRaw item valuation params)
  actualProfit := roundCent (actualProfitRaw item valuation params)
  actualROI := roundCent (actualROIRaw item valuation params)
  breakEvenPrice := roundCent (breakEvenPriceRaw item valuation params)
  shippingEstimate := shippingEstimateOf item
  fees := roundCent (sellingFees valuation params)

/-! ## Basic facts about cent rounding -/

theorem roundCent_idem (x : ℚ) : roundCent (roundCent x) = roundCent x := by
  unfold roundCent
  rw [div_mul_cancel₀ _ (by norm_num : (100 : ℚ) ≠ 0)]
  rw [round_intCast]

theorem centPrecise_roundCent (x : ℚ) : CentPrecise (roundCent x) :=
  roundCent_idem x

theorem centPrecise_shipping (item : ParsedItem) :
    CentPrecise (shippingEstimateOf item) := by
  unfold CentPrecise shippingEstimateOf SHIPPING_ESTIMATES roundCent
  split_ifs <;> norm_num [round_eq]

theorem sub_half_cent_le_roundCent (x : ℚ) : x - 1 / 200 ≤ roundCent x := by
  have h := (abs_le.mp (abs_sub_round (x * 100))).2
  unfold roundCent
  rw [le_div_iff₀ (by norm_num : (0 : ℚ) < 100)]
  linarith

theorem roundCent_mono {x y : ℚ} (h : x ≤ y) : roundCent x ≤ roundCent y := by
  unfold roundCent
  have hr : round (x * 100) ≤ round (y * 100) := by
    rw [round_eq, round_eq]
    exact Int.floor_le_floor (by linarith)
  have hc : ((round (x * 100) : ℤ) : ℚ) ≤ ((round (y * 100) : ℤ) : ℚ) :=
    Int.cast_le.mpr hr
  linarith

theorem roundCent_lt_roundCent {x y : ℚ} (h : x + 11 / 1000 ≤ y) :
    roundCent x < roundCent y := by
  unfold roundCent
  have hr : round (x * 100) < round (y * 100) := by
    rw [round_eq, round_eq]
    have h1 : (⌊x * 100 + 1 / 2⌋ + (1 : ℤ) : ℤ) = ⌊x * 100 + 1 / 2 + (1 : ℤ)⌋ :=
      (Int.floor_add_int _ 1).symm
    have h2 : ⌊x * 100 + 1 / 2 + ((1 : ℤ) : ℚ)⌋ ≤ ⌊y * 100 + 1 / 2⌋ :=
      Int.floor_le_floor (by push_cast; linarith)
    omega
  have hc : ((round (x * 100) : ℤ) : ℚ) < ((round (y * 100) : ℤ) : ℚ) :=
    Int.cast_lt.mpr hr
  have h100 : (0 : ℚ) < 100 := by norm_num
  exact (div_lt_div_iff_of_pos_right h100).mpr hc

/-- C1: for every item, valuation and analysis parameters, `calculateProfit`
computes net proceeds `N = V - V·f - S` (with `V` the estimated value, `f`
the selling-fee rate and `S` the shipping cost keyed by size class),
`maxBid = max(0, min((N - D)/(1+p), N/((1+p)·(1+R/100))))` with buyer's
premium rate `p = 10%`, `breakEvenPrice = N/(1+p)`, every monetary output is
rounded to cent precision, and the inner bid value is the lower of the two
bid candidates. -/
theorem calculateProfit_formulas (item : ParsedItem) (valuation : ValuationResult)
    (params : AnalysisParams) :
    (calculateProfit item valuation params).maxBid =
      roundCent (max 0 (min
        ((valuation.estimatedValue
            - valuation.estimatedValue * (params.selling_fee_percent / 100)
            - (SHIPPING_ESTIMATES item.sizeClass).getD 15
            - params.profit_min_dollars) / (1 + 10 / 100))
        ((valuation.estimatedValue
            - valuation.estimatedValue * (params.selling_fee_percent / 100)
            - (SHIPPING_ESTIMATES item.sizeClass).getD 15) /
          ((1 + 10 / 100) * (1 + params.profit_min_percent / 100))))) ∧
    (calculateProfit item valuation params).breakEvenPrice =
      roundCent ((valuation.estimatedValue
          - valuation.estimatedValue * (params.selling_fee_percent / 100)
          - (SHIPPING_ESTIMATES item.sizeClass).getD 15) / (1 + 10 / 100)) ∧
    (min (maxBidForDollarProfit item valuation params) (maxBidForROI item valuation params)
        ≤ maxBidForDollarProfit item valuation params ∧
     min (maxBidForDollarProfit item valuation params) (maxBidForROI item valuation params)
        ≤ maxBidForROI item valuation params ∧
     (min (maxBidForDollarProfit item valuation params) (maxBidForROI item valuation params)
          = maxBidForDollarProfit item valuation params ∨
      min (maxBidForDollarProfit item valuation params) (maxBidForROI item valuation params)
          = maxBidForROI item valuation params)) ∧
    CentPrecise (calculateProfit item valuation params).maxBid ∧
    CentPrecise (calculateProfit item valuation params).expectedProfit ∧
    CentPrecise (calculateProfit item valuation params).expectedROI ∧
    CentPrecise (calculateProfit item valuation params).actualProfit ∧
    CentPrecise (calculateProfit item valuation params).actualROI ∧
    CentPrecise (calculateProfit item valuation params).breakEvenPrice ∧
    CentPrecise (calculateProfit item valuation params).shippingEstimate ∧
    CentPrecise (calculateProfit item valuation params).fees := by
  refine ⟨?_, ?_, ⟨min_le_left _ _, min_le_right _ _, min_choice _ _⟩,
    centPrecise_roundCent _, centPrecise_roundCent _, centPrecise_roundCent _,
    centPrecise_roundCent _, centPrecise_roundCent _, centPrecise_roundCent _,
    centPrecise_shipping item, centPrecise_roundCent _⟩
  · simp [calculateProfit, maxBidRaw, maxBidForDollarProfit, maxBidForROI,
      netProceeds, sellingFees, sellingFeeRate, shippingEstimateOf,
      buyerPremiumMultiplier, KBID_BUYER_PREMIUM_RATE]
  · simp [calculateProfit, breakEvenPriceRaw, netProceeds, sellingFees,
      sellingFeeRate, shippingEstimateOf, buyerPremiumMultiplier,
      KBID_BUYER_PREMIUM_RATE]

/-- C2 (amended): whenever the profit and ROI targets are non-negative and the
net proceeds strictly exceed the dollar target (so both bid candidates are
positive), the computed `maxBid` re-substituted into the profit and ROI
formulas meets both targets exactly before rounding (hence to within a cent
after rounding), and it is the greatest — hence the supremum — of all
positive bids meeting both constraints simultaneously. -/
theorem maxBid_optimal (item : ParsedItem) (valuation : ValuationResult)
    (params : AnalysisParams)
    (hD : 0 ≤ params.profit_min_dollars) (hR : 0 ≤ params.profit_min_percent)
    (hN : params.profit_min_dollars < netProceeds item valuation params) :
    0 < maxBidRaw item valuation params ∧
    params.profit_min_dollars ≤ expectedProfitRaw item valuation params ∧
    params.profit_min_percent ≤ expectedROIRaw item valuation params ∧
    (∀ b : ℚ, 0 < b →
      params.profit_min_dollars ≤
        netProceeds item valuation params - b * buyerPremiumMultiplier →
      params.profit_min_percent ≤
        (netProceeds item valuation params - b * buyerPremiumMultiplier) /
          (b * buyerPremiumMultiplier) * 100 →
      b ≤ maxBidRaw item valuation params) ∧
    params.profit_min_dollars - 1 / 100 ≤
      (calculateProfit item valuation params).expectedProfit ∧
    params.profit_min_percent - 1 / 100 ≤
      (calculateProfit item valuation params).expectedROI := by
  have hq : buyerPremiumMultiplier = 11 / 10 := by
    norm_num [buyerPremiumMultiplier, KBID_BUYER_PREMIUM_RATE]
  set D := params.profit_min_dollars with hDdef
  set R := params.profit_min_percent with hRdef
  set N := netProceeds item valuation params with hNdef
  have hqpos : (0 : ℚ) < buyerPremiumMultiplier := by rw [hq]; norm_num
  have hcpos : (0 : ℚ) < 1 + R / 100 := by linarith
  have hbidD : maxBidForDollarProfit item valuation params =
      (N - D) / buyerPremiumMultiplier := rfl
  have hbidR : maxBidForROI item valuation params =
      N / (buyerPremiumMultiplier * (1 + R / 100)) := rfl
  have hDpos : 0 < (N - D) / buyerPremiumMultiplier := div_pos (by linarith) hqpos
  have hRpos : 0 < N / (buyerPremiumMultiplier * (1 + R / 100)) :=
    div_pos (by linarith) (by positivity)
  have hm : maxBidRaw item valuation params =
      min ((N - D) / buyerPremiumMultiplier)
        (N / (buyerPremiumMultiplier * (1 + R / 100))) := by
    unfold maxBidRaw
    rw [hbidD, hbidR, max_eq_right (le_min hDpos.le hRpos.le)]
  have hmpos : 0 < maxBidRaw item valuation params := by
    rw [hm]; exact lt_min hDpos hRpos
  have hm1 : maxBidRaw item valuation params ≤ (N - D) / buyerPremiumMultiplier := by
    rw [hm]; exact min_le_left _ _
  have hm2 : maxBidRaw item valuation params ≤
      N / (buyerPremiumMultiplier * (1 + R / 100)) := by
    rw [hm]; exact min_le_right _ _
  have hmq1 : maxBidRaw item valuation params * buyerPremiumMultiplier ≤ N - D :=
    (le_div_iff₀ hqpos).mp hm1
  have hmq2 : maxBidRaw item valuation params *
      (buyerPremiumMultiplier * (1 + R / 100)) ≤ N :=
    (le_div_iff₀ (by positivity)).mp hm2
  have hcost : maxBidTotalCost item valuation params =
      maxBidRaw item valuation params * buyerPremiumMultiplier := rfl
  have hcostpos : 0 < maxBidTotalCost item valuation params := by
    rw [hcost]; positivity
  have hprofit : expectedProfitRaw item valuation params =
      N - maxBidRaw item valuation params * buyerPremiumMultiplier := rfl
  have hgoal1 : D ≤ expectedProfitRaw item valuation params := by
    rw [hprofit]; linarith
  have hratio : R / 100 ≤
      (N - maxBidRaw item valuation params * buyerPremiumMultiplier) /
        (maxBidRaw item valuation params * buyerPremiumMultiplier) := by
    rw [le_div_iff₀ (by positivity)]
    nlinarith [hmq2]
  have hgoal2 : R ≤ expectedROIRaw item valuation params := by
    unfold expectedROIRaw
    rw [if_pos hcostpos, hprofit, hcost]
    nlinarith [hratio, mul_pos hmpos hqpos]
  refine ⟨hmpos, hgoal1, hgoal2, ?_, ?_, ?_⟩
  · intro b hb h1 h2
    rw [hm]
    refine le_min ?_ ?_
    · rw [le_div_iff₀ hqpos]; linarith
    · rw [le_div_iff₀ (by positivity)]
      have hbq : (0 : ℚ) < b * buyerPremiumMultiplier := by positivity
      have h3 : R / 100 * (b * buyerPremiumMultiplier) ≤
          N - b * buyerPremiumMultiplier := by
        have h4 : R / 100 ≤
            (N - b * buyerPremiumMultiplier) / (b * buyerPremiumMultiplier) := by
          linarith [h2]
        exact (le_div_iff₀ hbq).mp h4
      nlinarith [h3]
  · have := sub_half_cent_le_roundCent (expectedProfitRaw item valuation params)
    have heq : (calculateProfit item valuation params).expectedProfit =
        roundCent (expectedProfitRaw item valuation params) := rfl
    rw [heq]; linarith
  · have := sub_half_cent_le_roundCent (expectedROIRaw item valuation params)
    have heq : (calculateProfit item valuation params).expectedROI =
        roundCent (expectedROIRaw item valuation params) := rfl
    rw [heq]; linarith

/-- A concrete low-value listing: tests the branch where the dollar-profit
bid candidate is negative and `maxBid` is clamped to `0`. -/
def lowItem : ParsedItem :=
  { title := "misc lot", category := "Household", currentBid := 0,
    sizeClass := "small", excluded := false, bidCount := none, bidderCount := none }

/-- A low valuation: estimated resale value `$10`. -/
def lowVal : ValuationResult := { estimatedValue := 10 }

/-- Targets: `D = $20`, `R = 30%`, selling fee `0%`. -/
def lowParams : AnalysisParams :=
  { profit_min_dollars := 20, profit_min_percent := 30, selling_fee_percent := 0 }

/-- C2 (counterexample): at `V = 10 ≥ 0`, `S = 8 ≥ 0`, `f = 0 ∈ [0,1)`,
`D = 20`, `R = 30` the code clamps `maxBid` to `0` and the re-substituted
expected profit is `$2`, far below `D - ε` for any cent-scale `ε`: the claim
fails as stated for all `V, S ≥ 0`. -/
theorem maxBid_resubstitution_fails :
    (0 : ℚ) ≤ lowVal.estimatedValue ∧
    (0 : ℚ) ≤ shippingEstimateOf lowItem ∧
    (0 : ℚ) ≤ sellingFeeRate lowParams ∧ sellingFeeRate lowParams < 1 ∧
    (calculateProfit lowItem lowVal lowParams).maxBid = 0 ∧
    (calculateProfit lowItem lowVal lowParams).expectedProfit = 2 ∧
    (calculateProfit lowItem lowVal lowParams).expectedProfit <
      lowParams.profit_min_dollars - 1 := by
  norm_num [calculateProfit, maxBidRaw, maxBidForDollarProfit, maxBidForROI,
    netProceeds, sellingFees, sellingFeeRate, shippingEstimateOf, SHIPPING_ESTIMATES,
    buyerPremiumMultiplier, KBID_BUYER_PREMIUM_RATE, expectedProfitRaw,
    maxBidTotalCost, roundCent, round_eq, lowItem, lowVal, lowParams,
    min_def, max_def]

/-- The worked end-to-end example item: current bid `$40`, medium size. -/
def sampleItem : ParsedItem :=
  { title := "sample", category := "Electronics", currentBid := 40,
    sizeClass := "medium", excluded := false, bidCount := none, bidderCount := none }

/-- The worked example valuation: `V = $150`. -/
def sampleValuation : ValuationResult := { estimatedValue := 150 }

/-- The worked example parameters: `D = $20`, `R = 30%`, selling fee `13%`. -/
def sampleParams : AnalysisParams :=
  { profit_min_dollars := 20, profit_min_percent := 30, selling_fee_percent := 13 }

theorem maxBid_optimal_witness :
    ((0 : ℚ) ≤ sampleParams.profit_min_dollars ∧
     (0 : ℚ) ≤ sampleParams.profit_min_percent ∧
     sampleParams.profit_min_dollars < netProceeds sampleItem sampleValuation sampleParams) ∧
    (0 < maxBidRaw sampleItem sampleValuation sampleParams ∧
     sampleParams.profit_min_dollars ≤ expectedProfitRaw sampleItem sampleValuation sampleParams ∧
     sampleParams.profit_min_percent ≤ expectedROIRaw sampleItem sampleValuation sampleParams ∧
     (∀ b : ℚ, 0 < b →
       sampleParams.profit_min_dollars ≤
         netProceeds sampleItem sampleValuation sampleParams - b * buyerPremiumMultiplier →
       sampleParams.profit_min_percent ≤
         (netProceeds sampleItem sampleValuation sampleParams - b * buyerPremiumMultiplier) /
           (b * buyerPremiumMultiplier) * 100 →
       b ≤ maxBidRaw sampleItem sampleValuation sampleParams) ∧
     sampleParams.profit_min_dollars - 1 / 100 ≤
       (calculateProfit sampleItem sampleValuation sampleParams).expectedProfit ∧
     sampleParams.profit_min_percent - 1 / 100 ≤
       (calculateProfit sampleItem sampleValuation sampleParams).expectedROI) :=
  ⟨⟨by norm_num [sampleParams], by norm_num [sampleParams],
    by
      have hS : shippingEstimateOf sampleItem = 15 := rfl
      norm_num [netProceeds, sellingFees, sellingFeeRate, hS,
        sampleValuation, sampleParams]⟩,
    maxBid_optimal sampleItem sampleValuation sampleParams
      (by norm_num [sampleParams]) (by norm_num [sampleParams])
      (by
        have hS : shippingEstimateOf sampleItem = 15 := rfl
        norm_num [netProceeds, sellingFees, sellingFeeRate, hS,
          sampleValuation, sampleParams])⟩

/-! ## `processItem` from src/app/api/run-analysis/route.ts

The two external calls (`getValuation`, `getResaleAdvice`) are modelled as
inputs: `processItem` receives the valuation and the advice the calls
returned and performs the deterministic rest of the function. -/

/-- The fields of `ResaleAdvice` (src/lib/types.ts). -/
structure ResaleAdvice where
  recommendedChannel : String
  riskScore : String
  riskReasoning : String
  tips : List String
deriving DecidableEq

/-- `AnalyzedItem` (src/lib/types.ts): item + valuation + profit + advice +
the `meetsCriteria` flag. -/
structure AnalyzedItem where
  item : ParsedItem
  valuation : ValuationResult
  profit : ProfitAnalysis
  resale : ResaleAdvice
  meetsCriteria : Bool
deriving DecidableEq

/-- The all-zero `ProfitAnalysis` placeholder built by `processItem` when the
valuation estimate is zero. -/
def placeholderProfit : ProfitAnalysis :=
  { maxBid := 0, expectedProfit := 0, expectedROI := 0, actualProfit := 0,
    actualROI := 0, breakEvenPrice := 0, shippingEstimate := 0, fees := 0 }

/-- The placeholder advice built by `processItem` when the valuation estimate
is zero. -/
def placeholderResale : ResaleAdvice :=
  { recommendedChannel := "Unknown", riskScore := "high",
    riskReasoning := "Could not determine market value", tips := [] }

/-- `processItem` (src/app/api/run-analysis/route.ts): on a zero valuation it
returns the placeholder record with `meetsCriteria = false`; otherwise it runs
`calculateProfit` and sets `meetsCriteria` to
`expectedProfit >= D && expectedROI >= R && currentBid <= maxBid`. -/
def processItem (item : ParsedItem) (valuation : ValuationResult)
    (resale : ResaleAdvice) (params : AnalysisParams) : AnalyzedItem :=
  if valuation.estimatedValue = 0 then
    { item := item, valuation := valuation, profit := placeholderProfit,
      resale := placeholderResale, meetsCriteria := false }
  else
    let profit := calculateProfit item valuation params
    { item := item, valuation := valuation, profit := profit, resale := resale,
      meetsCriteria :=
        decide (params.profit_min_dollars ≤ profit.expectedProfit) &&
        decide (params.profit_min_percent ≤ profit.expectedROI) &&
        decide (item.currentBid ≤ profit.maxBid) }

/-- A zero-bid item used for the zero-valuation edge case. -/
def zeroItem : ParsedItem :=
  { title := "no bids yet", category := "Misc", currentBid := 0,
    sizeClass := "small", excluded := false, bidCount := none, bidderCount := none }

/-- A valuation with no market evidence: estimate `$0`. -/
def zeroVal : ValuationResult := { estimatedValue := 0 }

/-- Zero minimum-profit and minimum-ROI targets. -/
def zeroParams : AnalysisParams :=
  { profit_min_dollars := 0, profit_min_percent := 0, selling_fee_percent := 10 }

/-- A generic advice value standing for whatever `getResaleAdvice` returned. -/
def genericResale : ResaleAdvice :=
  { recommendedChannel := "eBay", riskScore := "low", riskReasoning := "", tips := [] }

/-- C3 (counterexample): a zero-valuation item with zero targets and zero
current bid satisfies all three criteria (`0 ≥ 0`, `0 ≥ 0`, `0 ≤ 0`) yet
`processItem` hard-codes `meetsCriteria = false` for it, so the claimed
"if and only if" fails on this analyzed item. -/
theorem meetsCriteria_iff_fails :
    (processItem zeroItem zeroVal genericResale zeroParams).meetsCriteria = false ∧
    zeroParams.profit_min_dollars ≤
      (processItem zeroItem zeroVal genericResale zeroParams).profit.expectedProfit ∧
    zeroParams.profit_min_percent ≤
      (processItem zeroItem zeroVal genericResale zeroParams).profit.expectedROI ∧
    zeroItem.currentBid ≤
      (processItem zeroItem zeroVal genericResale zeroParams).profit.maxBid := by
  norm_num [processItem, placeholderProfit, zeroItem, zeroVal, zeroParams]

/-- C3 (amended): for every analyzed item whose valuation estimate is nonzero,
`meetsCriteria` is true iff `expectedProfit ≥ D`, `expectedROI ≥ R` and
`currentBid ≤ maxBid`; zero-valuation items always get `meetsCriteria = false`,
and in all cases `meetsCriteria` is false whenever `currentBid > maxBid`. -/
theorem meetsCriteria_iff (item : ParsedItem) (valuation : ValuationResult)
    (resale : ResaleAdvice) (params : AnalysisParams) :
    (valuation.estimatedValue ≠ 0 →
      ((processItem item valuation resale params).meetsCriteria = true ↔
        (params.profit_min_dollars ≤ (calculateProfit item valuation params).expectedProfit ∧
         params.profit_min_percent ≤ (calculateProfit item valuation params).expectedROI ∧
         item.currentBid ≤ (calculateProfit item valuation params).maxBid))) ∧
    ((processItem item valuation resale params).profit.maxBid < item.currentBid →
      (processItem item valuation resale params).meetsCriteria = false) := by
  constructor
  · intro hv
    unfold processItem
    rw [if_neg hv]
    simp [and_assoc]
  · intro hlt
    unfold processItem at hlt ⊢
    by_cases hv : valuation.estimatedValue = 0
    · rw [if_pos hv]
    · rw [if_neg hv] at hlt ⊢
      simp only at hlt
      have hnle : ¬ item.currentBid ≤ (calculateProfit item valuation params).maxBid :=
        not_le.mpr hlt
      simp [hnle]

/-- An item whose live bid (`$100`) exceeds its computed `maxBid`. -/
def overItem : ParsedItem :=
  { title := "overbid lot", category := "Misc", currentBid := 100,
    sizeClass := "small", excluded := false, bidCount := none, bidderCount := none }

theorem meetsCriteria_iff_witness :
    (sampleValuation.estimatedValue ≠ 0 ∧
      ((processItem sampleItem sampleValuation genericResale sampleParams).meetsCriteria = true ↔
        (sampleParams.profit_min_dollars ≤
            (calculateProfit sampleItem sampleValuation sampleParams).expectedProfit ∧
         sampleParams.profit_min_percent ≤
            (calculateProfit sampleItem sampleValuation sampleParams).expectedROI ∧
         sampleItem.currentBid ≤
            (calculateProfit sampleItem sampleValuation sampleParams).maxBid))) ∧
    ((processItem overItem lowVal genericResale lowParams).profit.maxBid <
        overItem.currentBid ∧
      (processItem overItem lowVal genericResale lowParams).meetsCriteria = false) :=
  ⟨⟨by norm_num [sampleValuation],
    (meetsCriteria_iff sampleItem sampleValuation genericResale sampleParams).1
      (by norm_num [sampleValuation])⟩,
   by
    have hS : shippingEstimateOf overItem = 8 := rfl
    have hb : overItem.currentBid = 100 := rfl
    have hlt : (processItem overItem lowVal genericResale lowParams).profit.maxBid <
        overItem.currentBid := by
      norm_num [processItem, calculateProfit, maxBidRaw, maxBidForDollarProfit,
        maxBidForROI, netProceeds, sellingFees, sellingFeeRate, hS, hb,
        buyerPremiumMultiplier, KBID_BUYER_PREMIUM_RATE, roundCent, round_eq,
        min_def, max_def, lowVal, lowParams]
    exact ⟨hlt, (meetsCriteria_iff overItem lowVal genericResale lowParams).2 hlt⟩⟩

/-- C4 (counterexample): at the worked example's inputs
(currentBid = $40, medium, f = 13%, V = $150, D = $20, R = 30%, p = 10%)
the code's expected profit is $26.65, not ≈ $27.3: it differs from the
claimed value by $0.65, far beyond cent rounding. -/
theorem example_expectedProfit_not_27_30 :
    (calculateProfit sampleItem sampleValuation sampleParams).expectedProfit = 533 / 20 ∧
    1 / 100 <
      |(calculateProfit sampleItem sampleValuation sampleParams).expectedProfit
        - 273 / 10| := by
  have hS : shippingEstimateOf sampleItem = 15 := rfl
  have h1 : (calculateProfit sampleItem sampleValuation sampleParams).expectedProfit
      = 533 / 20 := by
    norm_num [calculateProfit, expectedProfitRaw, maxBidTotalCost, maxBidRaw,
      maxBidForDollarProfit, maxBidForROI, netProceeds, sellingFees, sellingFeeRate,
      hS, buyerPremiumMultiplier, KBID_BUYER_PREMIUM_RATE, roundCent, round_eq,
      min_def, max_def, sampleValuation, sampleParams]
  refine ⟨h1, ?_⟩
  rw [h1, show (533 / 20 : ℚ) - 273 / 10 = -(13 / 20) by norm_num, abs_neg,
    abs_of_nonneg (by norm_num : (0 : ℚ) ≤ 13 / 20)]
  norm_num

/-- C4 (amended): end-to-end at currentBid = $40, medium size (S = $15),
f = 13%, V = $150, D = $20, R = 30%, p = 10%: N = 115.5, the dollar-bound
candidate rounds to $86.82, the ROI-bound candidate to $80.77,
maxBid = $80.77, expectedProfit = $26.65 (with expectedROI exactly 30%), and
since 40 ≤ 80.77 the item meets the criteria. -/
theorem calculateProfit_example :
    netProceeds sampleItem sampleValuation sampleParams = 1155 / 10 ∧
    roundCent (maxBidForDollarProfit sampleItem sampleValuation sampleParams)
      = 8682 / 100 ∧
    roundCent (maxBidForROI sampleItem sampleValuation sampleParams) = 8077 / 100 ∧
    (calculateProfit sampleItem sampleValuation sampleParams).maxBid = 8077 / 100 ∧
    (calculateProfit sampleItem sampleValuation sampleParams).expectedProfit
      = 533 / 20 ∧
    (calculateProfit sampleItem sampleValuation sampleParams).expectedROI = 30 ∧
    sampleItem.currentBid ≤
      (calculateProfit sampleItem sampleValuation sampleParams).maxBid ∧
    (processItem sampleItem sampleValuation genericResale sampleParams).meetsCriteria
      = true := by
  have hS : shippingEstimateOf sampleItem = 15 := rfl
  have hb : sampleItem.currentBid = 40 := rfl
  refine ⟨?_, ?_, ?_, ?_, ?_, ?_, ?_, ?_⟩ <;>
    norm_num [processItem, calculateProfit, expectedProfitRaw, expectedROIRaw,
      maxBidTotalCost, maxBidRaw, maxBidForDollarProfit, maxBidForROI,
      netProceeds, sellingFees, sellingFeeRate, hS, hb, buyerPremiumMultiplier,
      KBID_BUYER_PREMIUM_RATE, roundCent, round_eq, min_def, max_def,
      Bool.and_eq_true, decide_eq_true_eq, sampleValuation, sampleParams]

/-- C9 (amended): for a fixed item, valuation and parameters, the unrounded
actual profit is strictly decreasing in the current bid; the returned
(cent-rounded) `actualProfit` is non-increasing in the current bid, and is
strictly decreasing as soon as the two bids differ by at least one cent. -/
theorem actualProfit_decreasing (item : ParsedItem) (valuation : ValuationResult)
    (params : AnalysisParams) (b1 b2 : ℚ) :
    (b1 < b2 →
      actualProfitRaw { item with currentBid := b2 } valuation params <
      actualProfitRaw { item with currentBid := b1 } valuation params) ∧
    (b1 < b2 →
      (calculateProfit { item with currentBid := b2 } valuation params).actualProfit ≤
      (calculateProfit { item with currentBid := b1 } valuation params).actualProfit) ∧
    (b1 + 1 / 100 ≤ b2 →
      (calculateProfit { item with currentBid := b2 } valuation params).actualProfit <
      (calculateProfit { item with currentBid := b1 } valuation params).actualProfit) := by
  have hq : buyerPremiumMultiplier = 11 / 10 := by
    norm_num [buyerPremiumMultiplier, KBID_BUYER_PREMIUM_RATE]
  have hN : ∀ b : ℚ, actualProfitRaw { item with currentBid := b } valuation params =
      netProceeds item valuation params - b * buyerPremiumMultiplier := fun _ => rfl
  have hraw : ∀ b1 b2 : ℚ, b1 < b2 →
      actualProfitRaw { item with currentBid := b2 } valuation params <
      actualProfitRaw { item with currentBid := b1 } valuation params := by
    intro c1 c2 hlt
    rw [hN, hN, hq]
    linarith
  have hcp : ∀ b : ℚ,
      (calculateProfit { item with currentBid := b } valuation params).actualProfit =
      roundCent (actualProfitRaw { item with currentBid := b } valuation params) :=
    fun _ => rfl
  refine ⟨hraw b1 b2, ?_, ?_⟩
  · intro hlt
    rw [hcp, hcp]
    exact roundCent_mono (hraw b1 b2 hlt).le
  · intro hle
    rw [hcp, hcp]
    apply roundCent_lt_roundCent
    rw [hN, hN, hq]
    linarith

/-- A zero-bid copy of the sub-cent pair used below. -/
def penny0Item : ParsedItem :=
  { title := "pair a", category := "Misc", currentBid := 0,
    sizeClass := "small", excluded := false, bidCount := none, bidderCount := none }

/-- The same item with a sub-cent bid of `$0.001`. -/
def penny1Item : ParsedItem :=
  { title := "pair a", category := "Misc", currentBid := 1 / 1000,
    sizeClass := "small", excluded := false, bidCount := none, bidderCount := none }

/-- Valuation `$100` for the sub-cent pair. -/
def penny100Val : ValuationResult := { estimatedValue := 100 }

/-- Fee-free targets for the sub-cent pair. -/
def pennyParams : AnalysisParams :=
  { profit_min_dollars := 0, profit_min_percent := 0, selling_fee_percent := 0 }

/-- C9 (counterexample): two bids that differ by a tenth of a cent
(`$0` and `$0.001`) both yield a cent-rounded `actualProfit` of `$92.00`, so
the returned `actualProfit` is not strictly decreasing in the current bid. -/
theorem actualProfit_not_strictly_decreasing :
    penny0Item.currentBid < penny1Item.currentBid ∧
    (calculateProfit penny0Item penny100Val pennyParams).actualProfit = 92 ∧
    (calculateProfit penny1Item penny100Val pennyParams).actualProfit = 92 := by
  have hS0 : shippingEstimateOf penny0Item = 8 := rfl
  have hS1 : shippingEstimateOf penny1Item = 8 := rfl
  have hb0 : penny0Item.currentBid = 0 := rfl
  have hb1 : penny1Item.currentBid = 1 / 1000 := rfl
  refine ⟨by norm_num [hb0, hb1], ?_, ?_⟩ <;>
    norm_num [calculateProfit, actualProfitRaw, actualTotalCost, netProceeds,
      sellingFees, sellingFeeRate, hS0, hS1, hb0, hb1, buyerPremiumMultiplier,
      KBID_BUYER_PREMIUM_RATE, roundCent, round_eq, penny100Val, pennyParams]

theorem actualProfit_decreasing_witness :
    ((10 : ℚ) < 20 ∧
      actualProfitRaw { penny0Item with currentBid := (20 : ℚ) } penny100Val pennyParams <
      actualProfitRaw { penny0Item with currentBid := (10 : ℚ) } penny100Val pennyParams) ∧
    ((10 : ℚ) + 1 / 100 ≤ 20 ∧
      (calculateProfit { penny0Item with currentBid := (20 : ℚ) } penny100Val
          pennyParams).actualProfit <
      (calculateProfit { penny0Item with currentBid := (10 : ℚ) } penny100Val
          pennyParams).actualProfit) :=
  ⟨⟨by norm_num,
    (actualProfit_decreasing penny0Item penny100Val pennyParams 10 20).1 (by norm_num)⟩,
   ⟨by norm_num,
    (actualProfit_decreasing penny0Item penny100Val pennyParams 10 20).2.2 (by norm_num)⟩⟩

/-- C10: the ROI outputs are guarded against division by zero: when the total
acquisition cost at `maxBid` is zero the code defines `expectedROI = 0`, and
when the total acquisition cost at the current bid is zero it defines
`actualROI = 0`. -/
theorem roi_zero_guards (item : ParsedItem) (valuation : ValuationResult)
    (params : AnalysisParams) :
    (maxBidTotalCost item valuation params = 0 →
      (calculateProfit item valuation params).expectedROI = 0) ∧
    (actualTotalCost item = 0 →
      (calculateProfit item valuation params).actualROI = 0) := by
  constructor
  · intro h
    have hz : expectedROIRaw item valuation params = 0 := by
      unfold expectedROIRaw
      rw [if_neg (by rw [h]; exact lt_irrefl 0)]
    show roundCent (expectedROIRaw item valuation params) = 0
    rw [hz]
    simp [roundCent]
  · intro h
    have hz : actualROIRaw item valuation params = 0 := by
      unfold actualROIRaw
      rw [if_neg (by rw [h]; exact lt_irrefl 0)]
    show roundCent (actualROIRaw item valuation params) = 0
    rw [hz]
    simp [roundCent]

theorem roi_zero_guards_witness :
    (maxBidTotalCost zeroItem lowVal lowParams = 0 ∧
      (calculateProfit zeroItem lowVal lowParams).expectedROI = 0) ∧
    (actualTotalCost zeroItem = 0 ∧
      (calculateProfit zeroItem lowVal lowParams).actualROI = 0) := by
  have hS : shippingEstimateOf zeroItem = 8 := rfl
  have hb : zeroItem.currentBid = 0 := rfl
  have hc : maxBidTotalCost zeroItem lowVal lowParams = 0 := by
    norm_num [maxBidTotalCost, maxBidRaw, maxBidForDollarProfit, maxBidForROI,
      netProceeds, sellingFees, sellingFeeRate, hS, buyerPremiumMultiplier,
      KBID_BUYER_PREMIUM_RATE, min_def, max_def, lowVal, lowParams]
  have ha : actualTotalCost zeroItem = 0 := by
    norm_num [actualTotalCost, hb]
  exact ⟨⟨hc, (roi_zero_guards zeroItem lowVal lowParams).1 hc⟩,
    ⟨ha, (roi_zero_guards zeroItem lowVal lowParams).2 ha⟩⟩

/-! ## `calculateInterestLevel` from src/unnamed/part_016 (the item parser) -/

/-- The three interest tiers of `ParsedItem.interestLevel`. -/
inductive InterestLevel where
  | low
  | medium
  | high
deriving DecidableEq

/-- `calculateInterestLevel(bidCount?, bidderCount?)`: defaults missing counts
to 0, computes bids-per-bidder (0 when there are no bidders), then the
cascade: high when ≥ 2 bidders averaging ≥ 3 bids each, else medium when
≥ 2 bidders or ≥ 4 bids, else low. -/
def calculateInterestLevel (bidCount bidderCount : Option ℕ) : InterestLevel :=
  let bids := bidCount.getD 0
  let bidders := bidderCount.getD 0
  let bidsPerBidder : ℚ := if 0 < bidders then (bids : ℚ) / (bidders : ℚ) else 0
  if 2 ≤ bidders ∧ 3 ≤ bidsPerBidder then .high
  else if 2 ≤ bidders ∨ 4 ≤ bids then .medium
  else .low

/-- `calculateInterestLevel` agrees with the cascade written over the average
directly (the inner no-bidder guard cannot fire in the high branch). -/
theorem calculateInterestLevel_eq (bidCount bidderCount : Option ℕ) :
    calculateInterestLevel bidCount bidderCount =
      (if 2 ≤ bidderCount.getD 0 ∧
          3 ≤ (bidCount.getD 0 : ℚ) / (bidderCount.getD 0 : ℚ) then .high
       else if 2 ≤ bidderCount.getD 0 ∨ 4 ≤ bidCount.getD 0 then .medium
       else .low) := by
  unfold calculateInterestLevel
  by_cases h0 : 0 < bidderCount.getD 0
  · simp only [if_pos h0]
  · have hz : bidderCount.getD 0 = 0 := by omega
    have hc1 : ¬(2 ≤ bidderCount.getD 0 ∧ 3 ≤ (0 : ℚ)) := by
      rintro ⟨h2, _⟩; omega
    have hc2 : ¬(2 ≤ bidderCount.getD 0 ∧
        3 ≤ (bidCount.getD 0 : ℚ) / (bidderCount.getD 0 : ℚ)) := by
      rintro ⟨h2, _⟩; omega
    simp only [if_neg h0, if_neg hc1, if_neg hc2]

/-- C5: `interestLevel` is a deterministic pure function of the bid and bidder
counts: high exactly when there are at least 2 distinct bidders averaging at
least 3 bids each; medium exactly when that fails but there are at least 2
bidders or at least 4 raw bids; low otherwise; and the three quoted instances
`(bids=6, bidders=2) = high`, `(bids=3, bidders=2) = medium`,
`(bids=1, bidders=1) = low` hold. -/
theorem calculateInterestLevel_spec (bidCount bidderCount : Option ℕ) :
    (calculateInterestLevel bidCount bidderCount = InterestLevel.high ↔
      2 ≤ bidderCount.getD 0 ∧
        3 ≤ (bidCount.getD 0 : ℚ) / (bidderCount.getD 0 : ℚ)) ∧
    (calculateInterestLevel bidCount bidderCount = InterestLevel.medium ↔
      ¬(2 ≤ bidderCount.getD 0 ∧
          3 ≤ (bidCount.getD 0 : ℚ) / (bidderCount.getD 0 : ℚ)) ∧
        (2 ≤ bidderCount.getD 0 ∨ 4 ≤ bidCount.getD 0)) ∧
    (calculateInterestLevel bidCount bidderCount = InterestLevel.low ↔
      ¬(2 ≤ bidderCount.getD 0 ∧
          3 ≤ (bidCount.getD 0 : ℚ) / (bidderCount.getD 0 : ℚ)) ∧
        ¬(2 ≤ bidderCount.getD 0 ∨ 4 ≤ bidCount.getD 0)) ∧
    calculateInterestLevel (some 6) (some 2) = InterestLevel.high ∧
    calculateInterestLevel (some 3) (some 2) = InterestLevel.medium ∧
    calculateInterestLevel (some 1) (some 1) = InterestLevel.low := by
  refine ⟨?_, ?_, ?_, ?_, ?_, ?_⟩
  · rw [calculateInterestLevel_eq]
    split_ifs with h1 h2 <;> simp_all
  · rw [calculateInterestLevel_eq]
    split_ifs with h1 h2 <;> simp_all
  · rw [calculateInterestLevel_eq]
    split_ifs with h1 h2 <;> simp_all
  · rw [calculateInterestLevel_eq]
    norm_num
  · rw [calculateInterestLevel_eq]
    norm_num
  · rw [calculateInterestLevel_eq]
    norm_num

/-! ## The deterministic exclusion guard in `extractItemDetails`
(src/unnamed/part_016) -/

/-- `EXCLUDED_CATEGORIES` from src/unnamed/part_016, verbatim. -/
def EXCLUDED_CATEGORIES : List String :=
  ["coins", "currency", "precious metals", "commercial", "industrial",
   "farm equipment", "heavy equipment", "construction"]

/-- JavaScript `s.toLowerCase()` (character-wise lowering). -/
def toLowerStr (s : String) : String := ⟨s.data.map Char.toLower⟩

/-- JavaScript `s.includes(sub)`: substring containment. -/
def strIncludes (s sub : String) : Bool := decide (sub.data <:+: s.data)

/-- `EXCLUDED_CATEGORIES.some(exc => category.includes(exc) || title.includes(exc))`
on the already-lowercased category and title. -/
def isExcludedCategory (category title : String) : Bool :=
  EXCLUDED_CATEGORIES.any fun exc => strIncludes category exc || strIncludes title exc

/-- The guard's effect on the classifier's exclusion flag: set `excluded` to
true when `isExcludedCategory` fires on the lowercased category/title and the
classifier had left it false; otherwise keep the classifier's flag. -/
def secondGuardExcluded (classifierExcluded : Bool) (category title : String) : Bool :=
  if isExcludedCategory (toLowerStr category) (toLowerStr title) && !classifierExcluded
  then true
  else classifierExcluded

/-- C7 (counterexample): a vehicle listing whose classifier result was
`excluded = false` is NOT caught by the deterministic second guard: neither
"vehicles" nor anything about real estate or firearms is in
`EXCLUDED_CATEGORIES`, so the item stays included. -/
theorem vehicles_not_force_excluded :
    secondGuardExcluded false "Vehicles" "1998 Ford F-150 Pickup Truck" = false := by
  decide

/-- C7 (amended): the deterministic second guard force-excludes exactly on its
eight-keyword denylist (coins, currency, precious metals, commercial,
industrial, farm equipment, heavy equipment, construction): whenever the
lowercased returned category or title contains one of these keywords, the
item is marked excluded no matter what the classifier's flag was. Vehicles,
real estate and firearms are filtered only by the external classifier, not by
this guard. -/
theorem secondGuard_excludes (category title : String) (classifierExcluded : Bool)
    (h : ∃ exc ∈ EXCLUDED_CATEGORIES,
      exc.data <:+: (toLowerStr category).data ∨
      exc.data <:+: (toLowerStr title).data) :
    secondGuardExcluded classifierExcluded category title = true := by
  obtain ⟨exc, hmem, hinf⟩ := h
  have hexc : isExcludedCategory (toLowerStr category) (toLowerStr title) = true := by
    unfold isExcludedCategory
    rw [List.any_eq_true]
    refine ⟨exc, hmem, ?_⟩
    rcases hinf with h | h <;> simp [strIncludes, h]
  unfold secondGuardExcluded
  cases classifierExcluded <;> simp [hexc]

theorem secondGuard_excludes_witness :
    (∃ exc ∈ EXCLUDED_CATEGORIES,
      exc.data <:+: (toLowerStr "Gold Coins Lot").data ∨
      exc.data <:+: (toLowerStr "Morgan Dollar Collection").data) ∧
    secondGuardExcluded false "Gold Coins Lot" "Morgan Dollar Collection" = true :=
  ⟨⟨"coins", by decide, Or.inl (by decide)⟩,
   secondGuard_excludes "Gold Coins Lot" "Morgan Dollar Collection" false
     ⟨"coins", by decide, Or.inl (by decide)⟩⟩

/-! ## `fetchWithRetry` (src/services/categoryAnalyzer.ts, scraper half)

An attempt's outward behaviour is one of: a network error / abort, or an
HTTP response with an `ok` flag, a status and a body. The loop body reads the
body text, then throws `HTTP <status>: <100-char slice>` when `ok` is false,
so a non-success response is a failure and its body is never returned for
parsing. -/

/-- Observable outcome of one fetch attempt. -/
inductive FetchOutcome where
  | netErr (msg : String)
  | resp (ok : Bool) (status : ℕ) (body : String)
deriving DecidableEq

/-- The body a successful attempt returns; `none` when the attempt fails
(network error, or non-success status thrown before the body is used). -/
def attemptSuccess : FetchOutcome → Option String
  | .resp true _ body => some body
  | _ => none

/-- The error a failed attempt throws: `HTTP <status>: <first 100 chars>` for
a response with a non-success status, the network error text otherwise. -/
def attemptFailureMsg : FetchOutcome → String
  | .netErr m => m
  | .resp _ status body => "HTTP " ++ toString status ++ ": " ++ body.take 100

/-- The `for (let i = 0; i <= retries; i++)` loop of `fetchWithRetry`: `fuel`
is the number of retries still allowed after attempt `i`; the returned list
records the waits performed between attempts. A failure with fuel left waits
`retryDelay` and retries; the last failure is rethrown to the caller. -/
def fetchLoop (attempt : ℕ → FetchOutcome) (retryDelay : ℕ) :
    ℕ → ℕ → List ℕ × Except String String
  | i, 0 =>
    match attemptSuccess (attempt i) with
    | some body => ([], Except.ok body)
    | none => ([], Except.error (attemptFailureMsg (attempt i)))
  | i, fuel + 1 =>
    match attemptSuccess (attempt i) with
    | some body => ([], Except.ok body)
    | none =>
      let r := fetchLoop attempt retryDelay (i + 1) fuel
      (retryDelay :: r.1, r.2)

/-- `fetchWithRetry(url, retries)`: run the loop from attempt `0` with
`retries` retries allowed. -/
def fetchWithRetry (attempt : ℕ → FetchOutcome) (retryDelay retries : ℕ) :
    List ℕ × Except String String :=
  fetchLoop attempt retryDelay 0 retries

theorem fetchLoop_ok (attempt : ℕ → FetchOutcome) (d : ℕ) :
    ∀ fuel i body, (fetchLoop attempt d i fuel).2 = Except.ok body →
      ∃ j, i ≤ j ∧ j ≤ i + fuel ∧ attemptSuccess (attempt j) = some body ∧
        ∀ k, i ≤ k → k < j → attemptSuccess (attempt k) = none := by
  intro fuel
  induction fuel with
  | zero =>
    intro i body hb
    cases h : attemptSuccess (attempt i) with
    | some b =>
      have hbb : b = body := by simp [fetchLoop, h] at hb; exact hb
      exact ⟨i, le_refl i, by omega, by rw [h, hbb],
        fun k hk1 hk2 => absurd hk1 (by omega)⟩
    | none => simp [fetchLoop, h] at hb
  | succ n ih =>
    intro i body hb
    cases h : attemptSuccess (attempt i) with
    | some b =>
      have hbb : b = body := by simp [fetchLoop, h] at hb; exact hb
      exact ⟨i, le_refl i, by omega, by rw [h, hbb],
        fun k hk1 hk2 => absurd hk1 (by omega)⟩
    | none =>
      have hb' : (fetchLoop attempt d (i + 1) n).2 = Except.ok body := by
        simp only [fetchLoop, h] at hb
        exact hb
      obtain ⟨j, hj1, hj2, hj3, hj4⟩ := ih (i + 1) body hb'
      refine ⟨j, by omega, by omega, hj3, fun m hm1 hm2 => ?_⟩
      rcases eq_or_lt_of_le hm1 with hm | hm
      · rw [← hm]; exact h
      · exact hj4 m (by omega) hm2

theorem fetchLoop_delays (attempt : ℕ → FetchOutcome) (d : ℕ) :
    ∀ fuel i, ∀ x ∈ (fetchLoop attempt d i fuel).1, x = d := by
  intro fuel
  induction fuel with
  | zero =>
    intro i x hx
    cases h : attemptSuccess (attempt i) <;> simp [fetchLoop, h] at hx
  | succ n ih =>
    intro i x hx
    cases h : attemptSuccess (attempt i) with
    | some b => simp [fetchLoop, h] at hx
    | none =>
      simp only [fetchLoop, h] at hx
      rcases List.mem_cons.mp hx with hx' | hx'
      · exact hx'
      · exact ih (i + 1) x hx'

theorem fetchLoop_err (attempt : ℕ → FetchOutcome) (d : ℕ) :
    ∀ fuel i, (∀ j, i ≤ j → j ≤ i + fuel → attemptSuccess (attempt j) = none) →
      (fetchLoop attempt d i fuel).2 =
        Except.error (attemptFailureMsg (attempt (i + fuel))) := by
  intro fuel
  induction fuel with
  | zero =>
    intro i hall
    have h := hall i (le_refl i) (by omega)
    simp [fetchLoop, h]
  | succ n ih =>
    intro i hall
    have h := hall i (le_refl i) (by omega)
    have htl := ih (i + 1) (fun j hj1 hj2 => hall j (by omega) (by omega))
    rw [show i + 1 + n = i + (n + 1) from by omega] at htl
    simp only [fetchLoop, h]
    exact htl

/-- C8: in `fetchWithRetry`, (i) a returned success always comes from an
attempt whose HTTP response was successful — every attempt with a non-success
status counts as a failure and its body is never the returned (parsed) value;
(ii) every wait between attempts equals the fixed `retryDelay`; (iii) when
every attempt up to the retry bound fails, the caller receives the terminal
error thrown by the last attempt, scoped to this single resource. -/
theorem fetchWithRetry_spec (attempt : ℕ → FetchOutcome) (retryDelay retries : ℕ) :
    (∀ body, (fetchWithRetry attempt retryDelay retries).2 = Except.ok body →
      ∃ j, j ≤ retries ∧
        (∃ status, attempt j = FetchOutcome.resp true status body) ∧
        ∀ k, k < j → attemptSuccess (attempt k) = none) ∧
    (∀ x ∈ (fetchWithRetry attempt retryDelay retries).1, x = retryDelay) ∧
    ((∀ j, j ≤ retries → attemptSuccess (attempt j) = none) →
      (fetchWithRetry attempt retryDelay retries).2 =
        Except.error (attemptFailureMsg (attempt retries))) := by
  refine ⟨?_, ?_, ?_⟩
  · intro body hb
    obtain ⟨j, hj1, hj2, hj3, hj4⟩ := fetchLoop_ok attempt retryDelay retries 0 body hb
    refine ⟨j, by omega, ?_, fun k hk => hj4 k (by omega) hk⟩
    cases ho : attempt j with
    | netErr m => rw [ho] at hj3; simp [attemptSuccess] at hj3
    | resp ok status b =>
      cases ok with
      | false => rw [ho] at hj3; simp [attemptSuccess] at hj3
      | true =>
        rw [ho] at hj3
        simp only [attemptSuccess, Option.some.injEq] at hj3
        exact ⟨status, by rw [hj3]⟩
  · exact fetchLoop_delays attempt retryDelay retries 0
  · intro hall
    have h2 := fetchLoop_err attempt retryDelay retries 0
      (fun j hj1 hj2 => hall j (by omega))
    rw [Nat.zero_add] at h2
    exact h2

/-- A trace whose first attempt is a 500 response and whose later attempts
succeed with body "page body". -/
def witAttempt : ℕ → FetchOutcome := fun i =>
  if i = 0 then FetchOutcome.resp false 500 "server error"
  else FetchOutcome.resp true 200 "page body"

/-- A trace in which every attempt times out. -/
def failAttempt : ℕ → FetchOutcome := fun _ => FetchOutcome.netErr "timeout"

theorem fetchWithRetry_spec_witness :
    ((fetchWithRetry witAttempt 1000 1).2 = Except.ok "page body" ∧
      ∃ j, j ≤ 1 ∧
        (∃ status, witAttempt j = FetchOutcome.resp true status "page body") ∧
        ∀ k, k < j → attemptSuccess (witAttempt k) = none) ∧
    ((∀ j, j ≤ 1 → attemptSuccess (failAttempt j) = none) ∧
      (fetchWithRetry failAttempt 1000 1).2 =
        Except.error (attemptFailureMsg (failAttempt 1))) :=
  ⟨⟨rfl, (fetchWithRetry_spec witAttempt 1000 1).1 "page body" rfl⟩,
   ⟨fun _ _ => rfl,
    (fetchWithRetry_spec failAttempt 1000 1).2.2 (fun _ _ => rfl)⟩⟩

/-! ## `processWithConcurrency` (src/app/api/run-analysis/route.ts)

JavaScript is single-threaded: `const currentIndex = index++` runs atomically
between awaits, while `await processor(items[currentIndex])` is a suspension
point at which any other worker may run. The pool is a state machine driven
by an arbitrary scheduler: an idle worker at its loop head either claims the
next index (when `index < N`) or leaves the loop; a worker whose processor
call returned appends the non-null result and goes back to the loop head.
`f i` is the result of `processor(items[i])`, with `none` standing for a
failed (null-producing) item. `claimed` records the history of claimed
indices. -/

/-- A worker is at its loop head, awaiting `processor(items[i])`, or out of
the loop. -/
inductive WStatus where
  | idle
  | processing (i : ℕ)
  | done
deriving DecidableEq

/-- The shared state of `processWithConcurrency`. -/
structure PoolState (R : Type) where
  index : ℕ
  workers : Multiset WStatus
  claimed : List ℕ
  results : List R
deriving DecidableEq

/-- The pool as built by `processWithConcurrency`: `Math.min(concurrency,
items.length)` workers, all at their loop head. -/
def initState (R : Type) (N K : ℕ) : PoolState R :=
  { index := 0, workers := Multiset.replicate (min K N) WStatus.idle,
    claimed := [], results := [] }

/-- One scheduler step of the pool. -/
inductive Step {R : Type} (N : ℕ) (f : ℕ → Option R) :
    PoolState R → PoolState R → Prop where
  | claim (s : PoolState R) (rest : Multiset WStatus)
      (hw : s.workers = WStatus.idle ::ₘ rest) (hlt : s.index < N) :
      Step N f s
        { index := s.index + 1,
          workers := WStatus.processing s.index ::ₘ rest,
          claimed := s.claimed ++ [s.index], results := s.results }
  | complete (s : PoolState R) (rest : Multiset WStatus) (i : ℕ)
      (hw : s.workers = WStatus.processing i ::ₘ rest) :
      Step N f s
        { index := s.index, workers := WStatus.idle ::ₘ rest,
          claimed := s.claimed, results := s.results ++ (f i).toList }
  | exitLoop (s : PoolState R) (rest : Multiset WStatus)
      (hw : s.workers = WStatus.idle ::ₘ rest) (hge : N ≤ s.index) :
      Step N f s
        { index := s.index, workers := WStatus.done ::ₘ rest,
          claimed := s.claimed, results := s.results }

/-- Reachability under any schedule. -/
def Reaches {R : Type} (N : ℕ) (f : ℕ → Option R) :
    PoolState R → PoolState R → Prop :=
  Relation.ReflTransGen (Step N f)

/-- `Promise.all` has resolved: every worker has left its loop. -/
def Terminal {R : Type} (s : PoolState R) : Prop :=
  ∀ w ∈ s.workers, w = WStatus.done

/-- Number of indices below `n` whose processor call returns a result. -/
def countSome {R : Type} (f : ℕ → Option R) (n : ℕ) : ℕ :=
  ((List.range n).filterMap f).length

/-- Number of failed (null-producing) indices below `n`. -/
def failedCount {R : Type} (f : ℕ → Option R) (n : ℕ) : ℕ :=
  ((List.range n).filter (fun i => (f i).isNone)).length

/-- Weight of a worker: 1 when it is processing an index that will produce a
result, 0 otherwise. -/
def workerWeight {R : Type} (f : ℕ → Option R) : WStatus → ℕ
  | WStatus.processing i => if (f i).isSome then 1 else 0
  | _ => 0

/-- Total weight of a worker multiset. -/
def wsum {R : Type} (f : ℕ → Option R) (m : Multiset WStatus) : ℕ :=
  (m.map (workerWeight f)).sum

theorem wsum_cons {R : Type} (f : ℕ → Option R) (w : WStatus)
    (m : Multiset WStatus) : wsum f (w ::ₘ m) = workerWeight f w + wsum f m := by
  simp [wsum, Multiset.map_cons, Multiset.sum_cons]

theorem countSome_succ {R : Type} (f : ℕ → Option R) (n : ℕ) :
    countSome f (n + 1) = countSome f n + (f n).toList.length := by
  unfold countSome
  rw [List.range_succ, List.filterMap_append, List.length_append]
  cases h : f n <;> simp [h]

theorem countSome_add_failedCount {R : Type} (f : ℕ → Option R) (n : ℕ) :
    countSome f n + failedCount f n = n := by
  have haux : ∀ l : List ℕ,
      (l.filterMap f).length + (l.filter (fun i => (f i).isNone)).length = l.length := by
    intro l
    induction l with
    | nil => simp
    | cons a t ih =>
      cases h : f a <;> simp [List.filterMap_cons, List.filter_cons, h] <;> omega
  simpa [countSome, failedCount] using haux (List.range n)

/-- The pool invariant: the claim counter never passes `N`; the claim history
is exactly `[0, index)`; pushed results plus in-flight successes balance the
successes among claimed indices; a worker leaves the loop only once all
indices are claimed; and the pool size is fixed. -/
def Inv {R : Type} (N K : ℕ) (f : ℕ → Option R) (s : PoolState R) : Prop :=
  s.index ≤ N ∧
  s.claimed = List.range s.index ∧
  s.results.length + wsum f s.workers = countSome f s.index ∧
  (WStatus.done ∈ s.workers → N ≤ s.index) ∧
  Multiset.card s.workers = min K N

theorem inv_init (R : Type) (N K : ℕ) (f : ℕ → Option R) :
    Inv N K f (initState R N K) := by
  refine ⟨Nat.zero_le N, rfl, ?_, ?_, ?_⟩
  · simp [initState, wsum, countSome, Multiset.map_replicate, workerWeight]
  · intro hd
    simp [initState, Multiset.mem_replicate] at hd
  · simp [initState]

theorem inv_step {R : Type} {N K : ℕ} {f : ℕ → Option R} {s s' : PoolState R}
    (hs : Inv N K f s) (hstep : Step N f s s') : Inv N K f s' := by
  obtain ⟨h1, h2, h3, h4, h5⟩ := hs
  cases hstep with
  | claim rest hw hlt =>
    have hrest : wsum f s.workers = wsum f rest := by
      rw [hw, wsum_cons]; simp [workerWeight]
    rw [hrest] at h3
    have hwt : workerWeight f (WStatus.processing s.index) =
        (f s.index).toList.length := by
      cases h : f s.index <;> simp [workerWeight, h]
    refine ⟨?_, ?_, ?_, ?_, ?_⟩
    · show s.index + 1 ≤ N
      omega
    · show s.claimed ++ [s.index] = List.range (s.index + 1)
      rw [h2, List.range_succ]
    · show s.results.length + wsum f (WStatus.processing s.index ::ₘ rest) =
        countSome f (s.index + 1)
      rw [wsum_cons, hwt, countSome_succ]
      omega
    · intro hd
      have hd' : WStatus.done ∈ rest := by
        rcases Multiset.mem_cons.mp hd with h | h
        · exact absurd h (by simp)
        · exact h
      have : WStatus.done ∈ s.workers := by
        rw [hw]; exact Multiset.mem_cons_of_mem hd'
      have := h4 this
      omega
    · show Multiset.card (WStatus.processing s.index ::ₘ rest) = min K N
      rw [← h5, hw]
      simp [Multiset.card_cons]
  | complete rest i hw =>
    have hws : wsum f s.workers =
        workerWeight f (WStatus.processing i) + wsum f rest := by
      rw [hw, wsum_cons]
    rw [hws] at h3
    have hwt : workerWeight f (WStatus.processing i) = (f i).toList.length := by
      cases h : f i <;> simp [workerWeight, h]
    rw [hwt] at h3
    refine ⟨h1, h2, ?_, ?_, ?_⟩
    · show (s.results ++ (f i).toList).length + wsum f (WStatus.idle ::ₘ rest) =
        countSome f s.index
      rw [List.length_append, wsum_cons]
      simp only [workerWeight]
      omega
    · intro hd
      have hd' : WStatus.done ∈ rest := by
        rcases Multiset.mem_cons.mp hd with h | h
        · exact absurd h (by simp)
        · exact h
      exact h4 (by rw [hw]; exact Multiset.mem_cons_of_mem hd')
    · show Multiset.card (WStatus.idle ::ₘ rest) = min K N
      rw [← h5, hw]
      simp [Multiset.card_cons]
  | exitLoop rest hw hge =>
    have hrest : wsum f s.workers = wsum f rest := by
      rw [hw, wsum_cons]; simp [workerWeight]
    rw [hrest] at h3
    refine ⟨h1, h2, ?_, fun _ => hge, ?_⟩
    · show s.results.length + wsum f (WStatus.done ::ₘ rest) = countSome f s.index
      rw [wsum_cons]
      simp only [workerWeight]
      omega
    · show Multiset.card (WStatus.done ::ₘ rest) = min K N
      rw [← h5, hw]
      simp [Multiset.card_cons]

theorem inv_reaches {R : Type} {N K : ℕ} {f : ℕ → Option R}
    {s0 s : PoolState R} (h0 : Inv N K f s0) (h : Reaches N f s0 s) :
    Inv N K f s := by
  induction h with
  | refl => exact h0
  | tail _ hstep ih => exact inv_step ih hstep

/-- C6 (amended): for every item list of length `N`, every concurrency limit
`K` with `1 ≤ K ≤ N` and every schedule, when the pool reaches a terminal
state it holds exactly `N` minus the number of failed (null-producing) items
as results, and the history of claimed indices is duplicate-free: no index is
ever processed more than once. -/
theorem processWithConcurrency_spec (R : Type) (N K : ℕ) (f : ℕ → Option R)
    (hK : 1 ≤ K) (hKN : K ≤ N) (s : PoolState R)
    (hreach : Reaches N f (initState R N K) s) (hterm : Terminal s) :
    s.results.length = N - failedCount f N ∧ s.claimed.Nodup := by
  obtain ⟨h1, h2, h3, h4, h5⟩ := inv_reaches (inv_init R N K f) hreach
  have hw0 : wsum f s.workers = 0 := by
    apply Multiset.sum_eq_zero
    intro x hx
    obtain ⟨w, hwm, rfl⟩ := Multiset.mem_map.mp hx
    rw [hterm w hwm]
    rfl
  have hmin : min K N = K := Nat.min_eq_left hKN
  have hcard : 0 < Multiset.card s.workers := by
    rw [h5, hmin]; omega
  obtain ⟨w, hwmem⟩ := Multiset.card_pos_iff_exists_mem.mp hcard
  have hdone : WStatus.done ∈ s.workers := by
    rw [← hterm w hwmem]; exact hwmem
  have hidx : s.index = N := le_antisymm h1 (h4 hdone)
  constructor
  · have hcs := countSome_add_failedCount f N
    rw [hidx, hw0] at h3
    omega
  · rw [h2, hidx]
    exact List.nodup_range N

/-- The constant processor that succeeds on every index. -/
def allOkProc : ℕ → Option ℕ := fun _ => some 0

/-- C6 (counterexample): the claim as stated quantifies over every `K ≤ N`,
including `K = 0`; with `K = 0` and one item the pool has
`Math.min(0, 1) = 0` workers, so its initial state is already terminal with
`0` results, while `N` minus the number of failed items is `1`. -/
theorem processWithConcurrency_zero_workers :
    (0 : ℕ) ≤ 1 ∧
    Terminal (initState ℕ 1 0) ∧
    Reaches 1 allOkProc (initState ℕ 1 0) (initState ℕ 1 0) ∧
    (initState ℕ 1 0).results.length = 0 ∧
    1 - failedCount allOkProc 1 = 1 := by
  refine ⟨by omega, ?_, Relation.ReflTransGen.refl, rfl, ?_⟩
  · intro w hw
    simp [initState, Multiset.mem_replicate] at hw
  · simp [failedCount, allOkProc, List.filter]

/-- The four states of the only schedule of a one-item, one-worker pool. -/
def poolS0 : PoolState ℕ := initState ℕ 1 1

/-- After the single worker claims index 0. -/
def poolS1 : PoolState ℕ :=
  { index := 1, workers := {WStatus.processing 0}, claimed := [0], results := [] }

/-- After the processor call for index 0 returns and its result is pushed. -/
def poolS2 : PoolState ℕ :=
  { index := 1, workers := {WStatus.idle}, claimed := [0], results := [0] }

/-- After the worker observes `index ≥ N` and leaves the loop. -/
def poolS3 : PoolState ℕ :=
  { index := 1, workers := {WStatus.done}, claimed := [0], results := [0] }

theorem processWithConcurrency_spec_witness :
    ((1 : ℕ) ≤ 1 ∧ Terminal poolS3 ∧
      Reaches 1 allOkProc (initState ℕ 1 1) poolS3) ∧
    (poolS3.results.length = 1 - failedCount allOkProc 1 ∧ poolS3.claimed.Nodup) := by
  have hterm : Terminal poolS3 := by
    intro w hw
    simpa [poolS3] using hw
  have h01 : Step 1 allOkProc poolS0 poolS1 := by
    have h := Step.claim (N := 1) (f := allOkProc) poolS0 0 (by rfl) (by norm_num [poolS0, initState])
    simpa [poolS0, poolS1, initState] using h
  have h12 : Step 1 allOkProc poolS1 poolS2 := by
    have h := Step.complete (N := 1) (f := allOkProc) poolS1 0 0 (by rfl)
    simpa [poolS1, poolS2, allOkProc] using h
  have h23 : Step 1 allOkProc poolS2 poolS3 := by
    have h := Step.exitLoop (N := 1) (f := allOkProc) poolS2 0 (by rfl)
      (by norm_num [poolS2])
    simpa [poolS2, poolS3] using h
  have hreach : Reaches 1 allOkProc (initState ℕ 1 1) poolS3 :=
    Relation.ReflTransGen.tail
      (Relation.ReflTransGen.tail
        (Relation.ReflTransGen.tail Relation.ReflTransGen.refl h01) h12) h23
  exact ⟨⟨le_refl 1, hterm, hreach⟩,
    processWithConcurrency_spec ℕ 1 1 allOkProc (le_refl 1) (le_refl 1)
      poolS3 hreach hterm⟩

end KBid
